import Mathlib

/-!
Verification development for QuickCL (`src/qcl.hpp`), a small OpenCL wrapper.

The OpenCL driver is modelled as an oracle (`Driver`): compilation success,
build logs, kernel-object creation and the error codes returned by
`setArg`/`enqueueNDRangeKernel` are arbitrary functions supplied from outside,
exactly as the library treats the driver as a black box.  The observable
behaviour of each library operation is its return value, the mutated
`device_context` state, and the trace of driver calls it performs.

`std::map` members (`_kernels`, `_program_cache`) are modelled as association
lists with `mapFind?` (= `std::map::find`) and `mapInsert`
(= `std::map::operator[]` assignment).  A `std::shared_ptr<cl::Kernel>` is an
`Option KernelHandle`; the null pointer inserted by `operator[]` on a missed
lookup is `Option.none`.  `std::size_t` arithmetic is carried out modulo
`2 ^ 64` at the one place where an addition can overflow.
-/

namespace QCL

/-- Lookup in a `std::map` modelled as an association list
(`std::map::find`; `none` means the key is absent). -/
def mapFind? {α : Type} : List (String × α) → String → Option α
  | [], _ => none
  | (k', v) :: rest, k => if k' = k then some v else mapFind? rest k

/-- Assignment through `std::map::operator[]`: overwrite the entry if the key
is present, append it otherwise. -/
def mapInsert {α : Type} : List (String × α) → String → α → List (String × α)
  | [], k, v => [(k, v)]
  | (k', v') :: rest, k, v =>
      if k' = k then (k', v) :: rest else (k', v') :: mapInsert rest k v

/-- A compiled `cl::Program`, remembered together with the source text it was
built from (the only observable the claims need). -/
structure Program where
  source : String
deriving DecidableEq

/-- A `cl::Kernel` object: an entry point of a compiled program. -/
structure KernelHandle where
  progSource : String
  kernelName : String
deriving DecidableEq

/-- `kernel_ptr = std::shared_ptr<cl::Kernel>`; `none` is the null pointer. -/
def kernel_ptr : Type := Option KernelHandle

instance : DecidableEq kernel_ptr := by
  unfold kernel_ptr; infer_instance

/-- A kernel argument as received by `cl::Kernel::setArg`: either a value of
some type `T` (opaque representation) or a raw block given by a pointer
(possibly null) and a byte size. -/
inductive KArg where
  | value (v : Nat)
  | rawBlock (ptr : Option Nat) (size : Nat)
deriving DecidableEq

/-- The data handed to `cl::CommandQueue::enqueueNDRangeKernel` (which is
non-blocking); `cl::NDRange` is a list of sizes, `cl::NullRange = []`,
the event slot and the dependency list are opaque host pointers. -/
structure EnqueueCall where
  kernel : KernelHandle
  offset : List Nat
  globalSize : List Nat
  localSize : List Nat
  event : Option Nat
  dependencies : Option Nat
  queue : Nat
deriving DecidableEq

/-- The OpenCL driver as a black-box oracle. -/
structure Driver where
  deviceName : String
  compileOk : String → Bool
  buildLog : String → String
  createKernelOk : String → String → Bool
  setArg : KernelHandle → Nat → KArg → Int
  enqueueResult : EnqueueCall → Int

/-- One driver call performed by the compilation cache (the observable by
which "compiles at most once" is stated). -/
inductive DriverCall where
  | compile (source : String)
  | createKernel (progSource : String) (kernelName : String)
deriving DecidableEq

/-- The parts of `qcl::device_context` the claims are about: the
`_kernels` map and the `_program_cache` map. -/
structure device_context where
  kernels : List (String × kernel_ptr)
  programCache : List (String × Program)
deriving DecidableEq

/-- `device_context::compile_source`: builds the program; on a driver build
failure it throws `get_device_name() ++ ": Could not compile CL source: "`
followed by the build log. -/
def compile_source (d : Driver) (program_src : String) : Except String Program :=
  if d.compileOk program_src then Except.ok { source := program_src }
  else Except.error
    (d.deviceName ++ ": Could not compile CL source: " ++ d.buildLog program_src)

/-- The scope string computed in `register_source_code` and `load_kernels`:
`scope + "::"` when the scope is non-empty, `""` otherwise. -/
def scopePre (scope : String) : String :=
  if scope.length > 0 then scope ++ "::" else ""

/-- Loop of `device_context::load_kernels` over the kernel names: create each
kernel object through the driver and store it under its scoped name; a driver
failure throws (`check_cl_error`), leaving the kernels inserted so far.
Returns the map, the driver-call trace and the thrown message (if any). -/
def load_kernelsGo (d : Driver) (prog : Program) (pre : String) :
    List (String × kernel_ptr) → List String →
    List (String × kernel_ptr) × List DriverCall × Option String
  | km, [] => (km, [], none)
  | km, n :: rest =>
      if d.createKernelOk prog.source n then
        let km' := mapInsert km (pre ++ n) (some ⟨prog.source, n⟩)
        let r := load_kernelsGo d prog pre km' rest
        (r.1, DriverCall.createKernel prog.source n :: r.2.1, r.2.2)
      else
        (km, [DriverCall.createKernel prog.source n],
         some "Could not create kernel object!")

/-- `device_context::load_kernels`. -/
def load_kernels (d : Driver) (km : List (String × kernel_ptr)) (prog : Program)
    (kernel_names : List String) (scope : String) :
    List (String × kernel_ptr) × List DriverCall × Option String :=
  load_kernelsGo d prog (scopePre scope) km kernel_names

/-- `device_context::register_source_code(source_code, kernel_names,
program_name, scope)`: partition the requested names against the `_kernels`
map, compile (and cache) only when some name is new and the program id is not
cached, then load the new kernels.  Returns the mutated context, the
driver-call trace, and the thrown message (if any); a throw leaves the
mutations performed before it, as in C++. -/
def register_source_code (d : Driver) (ctx : device_context)
    (source_code : String) (kernel_names : List String)
    (program_name : String) (scope : String) :
    device_context × List DriverCall × Option String :=
  let pre := scopePre scope
  let new_kernels :=
    kernel_names.filter (fun k => (mapFind? ctx.kernels (pre ++ k)).isNone)
  if new_kernels.length > 0 then
    match mapFind? ctx.programCache program_name with
    | some prog =>
        let r := load_kernels d ctx.kernels prog new_kernels scope
        ({ ctx with kernels := r.1 }, r.2.1, r.2.2)
    | none =>
        match compile_source d source_code with
        | Except.error msg => (ctx, [DriverCall.compile source_code], some msg)
        | Except.ok prog =>
            let cache' := mapInsert ctx.programCache program_name prog
            let r := load_kernels d ctx.kernels prog new_kernels scope
            ({ kernels := r.1, programCache := cache' },
             DriverCall.compile source_code :: r.2.1, r.2.2)
  else (ctx, [], none)

/-- The `register_source_code` overload without a program identifier: the
program name is the concatenation of the kernel names, and the scope is
empty. -/
def register_source_code_auto (d : Driver) (ctx : device_context)
    (cl_source : String) (kernel_names : List String) :
    device_context × List DriverCall × Option String :=
  let program_name := kernel_names.foldl (fun acc s => acc ++ s) ""
  register_source_code d ctx cl_source kernel_names program_name ""

/-- `device_context::get_kernel`: `_kernels[kernel_name]` inserts a null
pointer when the name is absent (`std::map::operator[]`), then a null result
throws "Requested kernel could not be found!". -/
def get_kernel (ctx : device_context) (kernel_name : String) :
    device_context × Except String KernelHandle :=
  match mapFind? ctx.kernels kernel_name with
  | some (some k) => (ctx, Except.ok k)
  | some none => (ctx, Except.error "Requested kernel could not be found!")
  | none =>
      ({ ctx with kernels := mapInsert ctx.kernels kernel_name none },
       Except.error "Requested kernel could not be found!")

/-! ### Buffer creation -/

def CL_MEM_READ_WRITE : Nat := 1
def CL_MEM_WRITE_ONLY : Nat := 2
def CL_MEM_READ_ONLY : Nat := 4
def CL_MEM_USE_HOST_PTR : Nat := 8
def CL_MEM_ALLOC_HOST_PTR : Nat := 16
def CL_MEM_COPY_HOST_PTR : Nat := 32

/-- The allocation request handed to the `cl::Buffer` constructor. -/
structure BufferRequest where
  flags : Nat
  byteSize : Nat
  hostData : Option Nat
deriving DecidableEq

/-- `device_context::create_buffer<T>(flags, size, initial_data)`: the flag
adjustment depends on `is_cpu_device()` and on whether `initial_data` is
null; the buffer is created with `size * sizeof(T)` bytes. -/
def create_buffer (is_cpu : Bool) (flags : Nat) (size sizeofT : Nat)
    (initial_data : Option Nat) : BufferRequest :=
  let flags' :=
    if is_cpu then
      if initial_data.isNone then flags ||| CL_MEM_ALLOC_HOST_PTR
      else flags ||| CL_MEM_USE_HOST_PTR
    else
      if initial_data.isSome then flags ||| CL_MEM_COPY_HOST_PTR
      else flags
  { flags := flags', byteSize := size * sizeofT, hostData := initial_data }

/-! ### Launch-size resolution and kernel enqueue -/

/-- `std::size_t` wraps modulo `2 ^ 64`. -/
def size_t_modulus : Nat := 2 ^ 64

/-- Loop body of `device_context::enqueue_ndrange_kernel` for one dimension:
`multiple = (work_items / local_items) * local_items;
if (multiple != work_items) multiple += local_items;` in `size_t`
arithmetic (the addition is the only operation that can wrap). -/
def resolve_global_size (work_items local_items : Nat) : Nat :=
  let multiple := work_items / local_items * local_items
  if multiple ≠ work_items then (multiple + local_items) % size_t_modulus
  else multiple

/-- `device_context::enqueue_ndrange_kernel`: computes the per-dimension
global size and submits the (non-blocking) enqueue to the driver, returning
the driver's error code and the call that was made. -/
def enqueue_ndrange_kernel (d : Driver) (kernel : KernelHandle)
    (minimum_num_work_items num_local_items : List Nat)
    (event : Option Nat) (offset : List Nat) (dependencies : Option Nat)
    (queue : Nat) : Int × EnqueueCall :=
  let globalSize :=
    List.zipWith resolve_global_size minimum_num_work_items num_local_items
  let call : EnqueueCall :=
    { kernel := kernel, offset := offset, globalSize := globalSize,
      localSize := num_local_items, event := event,
      dependencies := dependencies, queue := queue }
  (d.enqueueResult call, call)

/-! ### The argument binder (`kernel_argument_list`) -/

/-- The counter `_num_arguments` is a C++ `unsigned`, which wraps modulo
`2 ^ 32`. -/
def unsigned_modulus : Nat := 2 ^ 32

/-- `qcl::kernel_argument_list`: a kernel pointer plus the positional counter
`unsigned _num_arguments`; the stored value is always below
`unsigned_modulus` in reachable states (it starts at 0 and every increment
wraps). -/
structure kernel_argument_list where
  kernel : KernelHandle
  num_arguments : Nat
deriving DecidableEq

/-- `kernel_argument_list::push`: forwards to `setArg` at the current
counter value, increments the counter unconditionally — `++_num_arguments`
on an `unsigned` wraps modulo `2 ^ 32` — and returns the driver's error
code.  Both C++ overloads (`push(data)` and `push(data, size)`) are covered
by the two `KArg` constructors. -/
def kernel_argument_list.push (s : kernel_argument_list) (d : Driver)
    (data : KArg) : Int × kernel_argument_list :=
  (d.setArg s.kernel s.num_arguments data,
   { s with num_arguments := (s.num_arguments + 1) % unsigned_modulus })

/-- `kernel_argument_list::reset`. -/
def kernel_argument_list.reset (s : kernel_argument_list) :
    kernel_argument_list :=
  { s with num_arguments := 0 }

/-- `kernel_argument_list::get_num_pushed_arguments`. -/
def kernel_argument_list.get_num_pushed_arguments
    (s : kernel_argument_list) : Nat :=
  s.num_arguments

/-- A sequence of `push` calls; returns the final binder state and, for each
push, the index it bound at together with the error code it returned. -/
def pushMany (d : Driver) (s : kernel_argument_list) :
    List KArg → kernel_argument_list × List (Nat × Int)
  | [] => (s, [])
  | a :: rest =>
      let r := s.push d a
      let next := pushMany d r.2 rest
      (next.1, (s.num_arguments, r.1) :: next.2)

/-! ### `kernel_call` -/

/-- An argument handed to `kernel_call::operator()`: a plain value, a
`local_memory<T>` tag (`num_elements`, `sizeof(T)`), or a `raw_memory<T>`
tag (pointer, byte count). -/
inductive CallArg where
  | value (v : Nat)
  | localMem (num_elements sizeofT : Nat)
  | rawMem (ptr : Option Nat) (num_bytes : Nat)
deriving DecidableEq

/-- What `kernel_call::push_argument` passes to `kernel_argument_list::push`:
a `local_memory<T>` argument becomes a null pointer with
`num_elements * sizeof(T)` bytes, a `raw_memory<T>` argument its pointer and
byte count, anything else a by-value argument. -/
def CallArg.toKArg : CallArg → KArg
  | CallArg.value v => KArg.value v
  | CallArg.localMem n szT => KArg.rawBlock none (n * szT)
  | CallArg.rawMem p b => KArg.rawBlock p b

/-- `qcl::kernel_call`: context driver aside, it stores the kernel, the
argument binder built on that kernel, the minimum work size, the group size,
and the optional event slot and dependency list. -/
structure kernel_call where
  kernel : KernelHandle
  args : kernel_argument_list
  work_dim : List Nat
  group_dim : List Nat
  evt : Option Nat
  dependencies : Option Nat
deriving DecidableEq

/-- The `kernel_call` constructor: the binder starts at index 0 on the same
kernel. -/
def kernel_call.mk' (kernel : KernelHandle) (minimum_work_dim group_dim : List Nat)
    (evt dependencies : Option Nat) : kernel_call :=
  { kernel := kernel, args := { kernel := kernel, num_arguments := 0 },
    work_dim := minimum_work_dim, group_dim := group_dim,
    evt := evt, dependencies := dependencies }

/-- One driver interaction made during a `kernel_call` invocation. -/
inductive KernelCallEvent where
  | setArgCall (kernel : KernelHandle) (index : Nat) (arg : KArg)
  | enqueue (call : EnqueueCall)
deriving DecidableEq

/-- `kernel_call::push_argument` (its three overloads): pushes the translated
argument, discarding the error code as the C++ `void` overloads do. -/
def push_argument (d : Driver) (s : kernel_argument_list) (x : CallArg) :
    Int × kernel_argument_list :=
  s.push d x.toKArg

/-- `kernel_call::configure_arguments`: pushes each argument in order,
recording the `setArg` driver calls. -/
def configure_arguments (d : Driver) (s : kernel_argument_list) :
    List CallArg → kernel_argument_list × List KernelCallEvent
  | [] => (s, [])
  | x :: rest =>
      let s' := (push_argument d s x).2
      let next := configure_arguments d s' rest
      (next.1, KernelCallEvent.setArgCall s.kernel s.num_arguments x.toKArg :: next.2)

/-- `kernel_call::enqueue_kernel`: delegates to
`device_context::enqueue_ndrange_kernel` with a null offset, the stored event
and dependency list, and the default queue 0. -/
def kernel_call.enqueue_kernel (d : Driver) (kc : kernel_call) :
    Int × EnqueueCall :=
  enqueue_ndrange_kernel d kc.kernel kc.work_dim kc.group_dim kc.evt []
    kc.dependencies 0

/-- `kernel_call::operator()(args...)`: reset the binder, bind all arguments
in order, enqueue, reset again, and return the enqueue status.  The second
component is the updated object, the third the driver-call trace. -/
def kernel_call.invoke (d : Driver) (kc : kernel_call)
    (arguments : List CallArg) : Int × kernel_call × List KernelCallEvent :=
  let s0 := kc.args.reset
  let c := configure_arguments d s0 arguments
  let enq := kernel_call.enqueue_kernel d { kc with args := c.1 }
  let result := enq.1
  (result, { kc with args := c.1.reset },
   c.2 ++ [KernelCallEvent.enqueue enq.2])

/-- Modelled from the intended semantics of `kernel_call::partial_argument_list`:
the source forwards the unexpanded parameter pack
(`configure_arguments(arguments)`, the `...` expansion is missing), which is
ill-formed C++; this definition supplies the expansion
`configure_arguments(arguments...)` — bind every supplied argument in order
starting at the binder's current index, with no reset. -/
def partial_argument_binding (d : Driver) (kc : kernel_call)
    (arguments : List CallArg) : kernel_call × List KernelCallEvent :=
  let c := configure_arguments d kc.args arguments
  ({ kc with args := c.1 }, c.2)

/-- `kernel_call::discard_partial_arguments`: resets the binder. -/
def discard_partial_arguments (kc : kernel_call) : kernel_call :=
  { kc with args := kc.args.reset }

/-! ### Helper lemmas: association-list maps -/

theorem String.append_left_cancel {a b c : String} (h : a ++ b = a ++ c) :
    b = c := by
  have h2 : (a ++ b).data = (a ++ c).data := by rw [h]
  rw [String.data_append, String.data_append] at h2
  exact String.ext (List.append_cancel_left h2)

theorem mapFind?_mapInsert {α : Type} (m : List (String × α)) (k : String)
    (v : α) (x : String) :
    mapFind? (mapInsert m k v) x = if k = x then some v else mapFind? m x := by
  induction m with
  | nil => simp [mapInsert, mapFind?]
  | cons hd tl ih =>
      obtain ⟨k', v'⟩ := hd
      by_cases h1 : k' = k
      · subst h1
        by_cases h2 : k' = x <;> simp [mapInsert, mapFind?, h2]
      · by_cases h2 : k' = x
        · subst h2
          have h3 : ¬ (k = k') := fun h => h1 h.symm
          simp [mapInsert, mapFind?, h1, h3]
        · simp [mapInsert, mapFind?, h1, h2, ih]

theorem mapFind?_mapInsert_self {α : Type} (m : List (String × α))
    (k : String) (v : α) : mapFind? (mapInsert m k v) k = some v := by
  simp [mapFind?_mapInsert]

theorem mapFind?_mapInsert_ne {α : Type} (m : List (String × α))
    (k : String) (v : α) (x : String) (h : x ≠ k) :
    mapFind? (mapInsert m k v) x = mapFind? m x := by
  rw [mapFind?_mapInsert, if_neg (fun he => h he.symm)]

/-! ### Helper lemmas: `load_kernels` -/

theorem load_kernelsGo_no_compile (d : Driver) (prog : Program) (pre : String)
    (km : List (String × kernel_ptr)) (names : List String) (s : String) :
    DriverCall.compile s ∉ (load_kernelsGo d prog pre km names).2.1 := by
  induction names generalizing km with
  | nil => simp [load_kernelsGo]
  | cons n rest ih =>
      by_cases h : d.createKernelOk prog.source n <;>
        simp [load_kernelsGo, h, ih]

theorem load_kernelsGo_createKernel_mem (d : Driver) (prog : Program)
    (pre : String) (km : List (String × kernel_ptr)) (names : List String)
    (s n : String)
    (h : DriverCall.createKernel s n ∈ (load_kernelsGo d prog pre km names).2.1) :
    n ∈ names := by
  induction names generalizing km with
  | nil => simp [load_kernelsGo] at h
  | cons m rest ih =>
      by_cases hok : d.createKernelOk prog.source m <;>
        simp [load_kernelsGo, hok] at h
      · rcases h with ⟨_, h⟩ | h
        · simp [h]
        · exact List.mem_cons_of_mem _ (ih _ h)
      · simp [h.2]

theorem load_kernelsGo_find_preserved (d : Driver) (prog : Program)
    (pre : String) (km : List (String × kernel_ptr)) (names : List String)
    (x : String) (hx : ∀ n ∈ names, x ≠ pre ++ n) :
    mapFind? (load_kernelsGo d prog pre km names).1 x = mapFind? km x := by
  induction names generalizing km with
  | nil => simp [load_kernelsGo]
  | cons n rest ih =>
      by_cases hok : d.createKernelOk prog.source n <;>
        simp [load_kernelsGo, hok]
      rw [ih _ (fun m hm => hx m (List.mem_cons_of_mem _ hm)),
        mapFind?_mapInsert_ne _ _ _ _ (hx n (List.mem_cons_self _ _))]

theorem load_kernelsGo_isSome_mono (d : Driver) (prog : Program)
    (pre : String) (km : List (String × kernel_ptr)) (names : List String)
    (x : String) (hx : (mapFind? km x).isSome) :
    (mapFind? (load_kernelsGo d prog pre km names).1 x).isSome := by
  induction names generalizing km with
  | nil => simpa [load_kernelsGo] using hx
  | cons n rest ih =>
      by_cases hok : d.createKernelOk prog.source n <;>
        simp [load_kernelsGo, hok]
      · apply ih
        rw [mapFind?_mapInsert]
        split <;> simp [hx]
      · exact hx

theorem load_kernelsGo_ok_find (d : Driver) (prog : Program) (pre : String)
    (km : List (String × kernel_ptr)) (names : List String) (k : String)
    (hk : k ∈ names)
    (hok : (load_kernelsGo d prog pre km names).2.2 = none) :
    mapFind? (load_kernelsGo d prog pre km names).1 (pre ++ k)
      = some (some ⟨prog.source, k⟩) := by
  induction names generalizing km with
  | nil => simp at hk
  | cons n rest ih =>
      by_cases hc : d.createKernelOk prog.source n
      · simp only [load_kernelsGo, if_pos hc] at hok ⊢
        by_cases hkr : k ∈ rest
        · exact ih _ hkr hok
        · have hkn : k = n := by
            rcases List.mem_cons.mp hk with h | h
            · exact h
            · exact absurd h hkr
          subst hkn
          rw [load_kernelsGo_find_preserved]
          · exact mapFind?_mapInsert_self _ _ _
          · intro m hm he
            exact hkr (String.append_left_cancel he ▸ hm)
      · simp [load_kernelsGo, hc] at hok

/-! ### Helper lemmas: `register_source_code` -/

/-- Abbreviation for the `new_kernels` list computed by
`register_source_code`. -/
def newKernelsOf (ctx : device_context) (kernel_names : List String)
    (scope : String) : List String :=
  kernel_names.filter
    (fun k => (mapFind? ctx.kernels (scopePre scope ++ k)).isNone)

theorem register_eq_of_no_new (d : Driver) (ctx : device_context)
    (src : String) (names : List String) (pid scope : String)
    (h : newKernelsOf ctx names scope = []) :
    register_source_code d ctx src names pid scope = (ctx, [], none) := by
  simp only [register_source_code, newKernelsOf] at h ⊢
  rw [h]
  simp

theorem register_all_known (d : Driver) (ctx : device_context)
    (src : String) (names : List String) (pid scope : String)
    (hall : ∀ k ∈ names, (mapFind? ctx.kernels (scopePre scope ++ k)).isSome) :
    register_source_code d ctx src names pid scope = (ctx, [], none) := by
  apply register_eq_of_no_new
  apply List.filter_eq_nil_iff.mpr
  intro a ha
  have h1 := hall a ha
  rcases h2 : mapFind? ctx.kernels (scopePre scope ++ a) with _ | v
  · rw [h2] at h1
    simp at h1
  · simp [h2]

theorem register_find_preserved (d : Driver) (ctx : device_context)
    (src : String) (names : List String) (pid scope : String) (x : String)
    (hx : ∀ k ∈ newKernelsOf ctx names scope, x ≠ scopePre scope ++ k) :
    mapFind? (register_source_code d ctx src names pid scope).1.kernels x
      = mapFind? ctx.kernels x := by
  simp only [newKernelsOf] at hx
  simp only [register_source_code]
  by_cases hnk :
      (names.filter
        (fun k => (mapFind? ctx.kernels (scopePre scope ++ k)).isNone)).length > 0
  · rw [if_pos hnk]
    rcases hc : mapFind? ctx.programCache pid with _ | prog
    · rcases hcs : compile_source d src with msg | prog2
      · simp [hcs]
      · simp only [hcs, load_kernels]
        exact load_kernelsGo_find_preserved _ _ _ _ _ _ hx
    · simp only [load_kernels]
      exact load_kernelsGo_find_preserved _ _ _ _ _ _ hx
  · rw [if_neg hnk]

theorem register_ok_all_present (d : Driver) (ctx : device_context)
    (src : String) (names : List String) (pid scope : String)
    (ctx' : device_context) (tr : List DriverCall)
    (h : register_source_code d ctx src names pid scope = (ctx', tr, none)) :
    ∀ k ∈ names, (mapFind? ctx'.kernels (scopePre scope ++ k)).isSome := by
  intro k hk
  simp only [register_source_code] at h
  by_cases hnk :
      (names.filter
        (fun k => (mapFind? ctx.kernels (scopePre scope ++ k)).isNone)).length > 0
  · rw [if_pos hnk] at h
    rcases hc : mapFind? ctx.programCache pid with _ | prog
    · rw [hc] at h
      rcases hcs : compile_source d src with msg | prog2
      · rw [hcs] at h
        simp at h
      · rw [hcs] at h
        simp only [Prod.mk.injEq] at h
        obtain ⟨h1, _, h3⟩ := h
        rcases h4 : mapFind? ctx.kernels (scopePre scope ++ k) with _ | v
        · have hkm : k ∈ names.filter
              (fun k => (mapFind? ctx.kernels (scopePre scope ++ k)).isNone) :=
            List.mem_filter.mpr ⟨hk, by simp [h4]⟩
          rw [← h1]
          simp only [load_kernels] at h3 ⊢
          rw [load_kernelsGo_ok_find _ _ _ _ _ _ hkm h3]
          rfl
        · rw [← h1]
          simp only [load_kernels]
          exact load_kernelsGo_isSome_mono _ _ _ _ _ _ (by simp [h4])
    · rw [hc] at h
      simp only [Prod.mk.injEq] at h
      obtain ⟨h1, _, h3⟩ := h
      rcases h4 : mapFind? ctx.kernels (scopePre scope ++ k) with _ | v
      · have hkm : k ∈ names.filter
            (fun k => (mapFind? ctx.kernels (scopePre scope ++ k)).isNone) :=
          List.mem_filter.mpr ⟨hk, by simp [h4]⟩
        rw [← h1]
        simp only [load_kernels] at h3 ⊢
        rw [load_kernelsGo_ok_find _ _ _ _ _ _ hkm h3]
        rfl
      · rw [← h1]
        simp only [load_kernels]
        exact load_kernelsGo_isSome_mono _ _ _ _ _ _ (by simp [h4])
  · rw [if_neg hnk] at h
    simp only [Prod.mk.injEq] at h
    obtain ⟨h1, -⟩ := h
    have hfil := List.length_eq_zero.mp (Nat.eq_zero_of_not_pos hnk)
    have := List.filter_eq_nil_iff.mp hfil k hk
    rw [← h1]
    rcases h4 : mapFind? ctx.kernels (scopePre scope ++ k) with _ | v
    · rw [h4] at this
      simp at this
    · rfl

theorem register_cached_no_compile (d : Driver) (ctx : device_context)
    (src : String) (names : List String) (pid scope : String) (prog : Program)
    (hp : mapFind? ctx.programCache pid = some prog) (s : String) :
    DriverCall.compile s
      ∉ (register_source_code d ctx src names pid scope).2.1 := by
  simp only [register_source_code]
  by_cases hnk :
      (names.filter
        (fun k => (mapFind? ctx.kernels (scopePre scope ++ k)).isNone)).length > 0
  · rw [if_pos hnk, hp]
    simp only [load_kernels]
    exact load_kernelsGo_no_compile _ _ _ _ _ _
  · rw [if_neg hnk]
    simp

theorem register_cached_new_kernel (d : Driver) (ctx : device_context)
    (src : String) (names : List String) (pid scope : String)
    (prog : Program) (k : String)
    (hp : mapFind? ctx.programCache pid = some prog)
    (hk : k ∈ names)
    (hfresh : mapFind? ctx.kernels (scopePre scope ++ k) = none)
    (hok : (register_source_code d ctx src names pid scope).2.2 = none) :
    mapFind? (register_source_code d ctx src names pid scope).1.kernels
        (scopePre scope ++ k)
      = some (some ⟨prog.source, k⟩) := by
  have hkm : k ∈ names.filter
      (fun k => (mapFind? ctx.kernels (scopePre scope ++ k)).isNone) :=
    List.mem_filter.mpr ⟨hk, by simp [hfresh]⟩
  have hnk : (names.filter
      (fun k => (mapFind? ctx.kernels (scopePre scope ++ k)).isNone)).length > 0 :=
    List.length_pos.mpr (List.ne_nil_of_mem hkm)
  simp only [register_source_code] at hok ⊢
  rw [if_pos hnk, hp] at hok ⊢
  simp only [load_kernels] at hok ⊢
  exact load_kernelsGo_ok_find _ _ _ _ _ _ hkm hok

theorem register_ok_fresh_kernel (d : Driver) (ctx : device_context)
    (src : String) (names : List String) (pid scope : String) (k : String)
    (ctx' : device_context) (tr : List DriverCall)
    (h : register_source_code d ctx src names pid scope = (ctx', tr, none))
    (hk : k ∈ names)
    (hfresh : mapFind? ctx.kernels (scopePre scope ++ k) = none) :
    ∃ s, mapFind? ctx'.kernels (scopePre scope ++ k) = some (some ⟨s, k⟩) := by
  have hkm : k ∈ names.filter
      (fun k => (mapFind? ctx.kernels (scopePre scope ++ k)).isNone) :=
    List.mem_filter.mpr ⟨hk, by simp [hfresh]⟩
  have hnk : (names.filter
      (fun k => (mapFind? ctx.kernels (scopePre scope ++ k)).isNone)).length > 0 :=
    List.length_pos.mpr (List.ne_nil_of_mem hkm)
  simp only [register_source_code] at h
  rw [if_pos hnk] at h
  rcases hc : mapFind? ctx.programCache pid with _ | prog
  · rw [hc] at h
    rcases hcs : compile_source d src with msg | prog2
    · rw [hcs] at h
      simp at h
    · rw [hcs] at h
      simp only [Prod.mk.injEq] at h
      obtain ⟨h1, _, h3⟩ := h
      refine ⟨prog2.source, ?_⟩
      rw [← h1]
      simp only [load_kernels] at h3 ⊢
      exact load_kernelsGo_ok_find _ _ _ _ _ _ hkm h3
  · rw [hc] at h
    simp only [Prod.mk.injEq] at h
    obtain ⟨h1, _, h3⟩ := h
    refine ⟨prog.source, ?_⟩
    rw [← h1]
    simp only [load_kernels] at h3 ⊢
    exact load_kernelsGo_ok_find _ _ _ _ _ _ hkm h3

/-! ### Helper lemmas: argument binding traces -/

theorem unsigned_modulus_pos : 0 < unsigned_modulus := by
  norm_num [unsigned_modulus]

theorem map_wrap_enumFrom_push (d : Driver) (kern : KernelHandle) (a b : Nat)
    (hab : a % unsigned_modulus = b % unsigned_modulus) (l : List KArg) :
    (List.enumFrom a l).map
        (fun p => (p.1 % unsigned_modulus,
          d.setArg kern (p.1 % unsigned_modulus) p.2))
      = (List.enumFrom b l).map
          (fun p => (p.1 % unsigned_modulus,
            d.setArg kern (p.1 % unsigned_modulus) p.2)) := by
  induction l generalizing a b with
  | nil => rfl
  | cons x rest ih =>
      simp only [List.enumFrom, List.map_cons]
      rw [hab, ih (a + 1) (b + 1) (by rw [Nat.add_mod, hab, ← Nat.add_mod])]

theorem map_wrap_enumFrom_event (kern : KernelHandle) (a b : Nat)
    (hab : a % unsigned_modulus = b % unsigned_modulus) (l : List CallArg) :
    (List.enumFrom a l).map
        (fun p => KernelCallEvent.setArgCall kern
          (p.1 % unsigned_modulus) p.2.toKArg)
      = (List.enumFrom b l).map
          (fun p => KernelCallEvent.setArgCall kern
            (p.1 % unsigned_modulus) p.2.toKArg) := by
  induction l generalizing a b with
  | nil => rfl
  | cons x rest ih =>
      simp only [List.enumFrom, List.map_cons]
      rw [hab, ih (a + 1) (b + 1) (by rw [Nat.add_mod, hab, ← Nat.add_mod])]

theorem pushMany_eq (d : Driver) (s : kernel_argument_list)
    (args : List KArg) (h : s.num_arguments < unsigned_modulus) :
    pushMany d s args
      = (⟨s.kernel, (s.num_arguments + args.length) % unsigned_modulus⟩,
         (List.enumFrom s.num_arguments args).map
           (fun p => (p.1 % unsigned_modulus,
             d.setArg s.kernel (p.1 % unsigned_modulus) p.2))) := by
  induction args generalizing s with
  | nil => simp [pushMany, List.enumFrom, Nat.mod_eq_of_lt h]
  | cons a rest ih =>
      have hs' : (s.num_arguments + 1) % unsigned_modulus < unsigned_modulus :=
        Nat.mod_lt _ unsigned_modulus_pos
      simp only [pushMany, kernel_argument_list.push,
        ih ⟨s.kernel, (s.num_arguments + 1) % unsigned_modulus⟩ hs',
        List.enumFrom, List.map_cons, List.length_cons]
      have h1 : s.num_arguments + 1 + rest.length
          = s.num_arguments + (rest.length + 1) := by omega
      rw [Nat.mod_eq_of_lt h, Nat.mod_add_mod, h1,
        map_wrap_enumFrom_push d s.kernel
          ((s.num_arguments + 1) % unsigned_modulus) (s.num_arguments + 1)
          (Nat.mod_mod_of_dvd _ dvd_rfl) rest]

theorem configure_arguments_eq (d : Driver) (s : kernel_argument_list)
    (args : List CallArg) (h : s.num_arguments < unsigned_modulus) :
    configure_arguments d s args
      = (⟨s.kernel, (s.num_arguments + args.length) % unsigned_modulus⟩,
         (List.enumFrom s.num_arguments args).map
           (fun p => KernelCallEvent.setArgCall s.kernel
             (p.1 % unsigned_modulus) p.2.toKArg)) := by
  induction args generalizing s with
  | nil => simp [configure_arguments, List.enumFrom, Nat.mod_eq_of_lt h]
  | cons a rest ih =>
      have hs' : (s.num_arguments + 1) % unsigned_modulus < unsigned_modulus :=
        Nat.mod_lt _ unsigned_modulus_pos
      simp only [configure_arguments, push_argument,
        kernel_argument_list.push,
        ih ⟨s.kernel, (s.num_arguments + 1) % unsigned_modulus⟩ hs',
        List.enumFrom, List.map_cons, List.length_cons]
      have h1 : s.num_arguments + 1 + rest.length
          = s.num_arguments + (rest.length + 1) := by omega
      rw [Nat.mod_eq_of_lt h, Nat.mod_add_mod, h1,
        map_wrap_enumFrom_event s.kernel
          ((s.num_arguments + 1) % unsigned_modulus) (s.num_arguments + 1)
          (Nat.mod_mod_of_dvd _ dvd_rfl) rest]

/-- Indices bound by a sequence of pushes starting from a reset binder: the
n-th push binds at index `n % 2^32` (the `unsigned` counter wraps). -/
theorem pushMany_reset_indices (d : Driver) (s : kernel_argument_list)
    (args : List KArg) :
    (pushMany d s.reset args).2.map Prod.fst
      = (List.range args.length).map (fun i => i % unsigned_modulus) := by
  rw [pushMany_eq d s.reset args unsigned_modulus_pos]
  simp only [kernel_argument_list.reset, List.map_map]
  have hcomp : (Prod.fst ∘ fun p : Nat × KArg =>
        (p.1 % unsigned_modulus, d.setArg s.kernel (p.1 % unsigned_modulus) p.2))
      = (fun i => i % unsigned_modulus) ∘ Prod.fst := rfl
  rw [hcomp, ← List.map_map, List.enumFrom_map_fst, ← List.range_eq_range']

/-! ### Concrete drivers used by the witnesses -/

/-- A driver on which every operation succeeds. -/
def okDriver : Driver :=
  { deviceName := "dev", compileOk := fun _ => true, buildLog := fun _ => "",
    createKernelOk := fun _ _ => true, setArg := fun _ _ _ => 0,
    enqueueResult := fun _ => 0 }

/-- A driver whose compiler rejects every source with build log "log". -/
def failDriver : Driver :=
  { deviceName := "dev", compileOk := fun _ => false,
    buildLog := fun _ => "log", createKernelOk := fun _ _ => true,
    setArg := fun _ _ _ => 0, enqueueResult := fun _ => 0 }

/-! ### Launch-size resolution -/

/-- The rounding loop of `enqueue_ndrange_kernel` is correct whenever the
`size_t` addition `multiple + local_items` does not overflow: the resolved
size is a multiple of the local size, at least the requested minimum, and
less than minimum plus local size. -/
theorem resolve_global_size_correct (M L : Nat) (hL : 0 < L)
    (hno : M + L ≤ size_t_modulus) :
    resolve_global_size M L % L = 0
    ∧ M ≤ resolve_global_size M L
    ∧ resolve_global_size M L < M + L := by
  unfold resolve_global_size
  by_cases h : M / L * L = M
  · simp only [h, ne_eq, not_true_eq_false, if_false, ite_false]
    refine ⟨?_, Nat.le_refl M, by omega⟩
    conv_lhs => rw [← h]
    exact Nat.mul_mod_left _ _
  · have hlt : M / L * L < M := Nat.lt_of_le_of_ne (Nat.div_mul_le_self M L) h
    have hsmall : M / L * L + L < size_t_modulus := by omega
    simp only [ne_eq, h, not_false_eq_true, if_true, ite_true,
      Nat.mod_eq_of_lt hsmall]
    refine ⟨?_, ?_, by omega⟩
    · have : M / L * L + L = (M / L + 1) * L := by ring
      rw [this]
      exact Nat.mul_mod_left _ _
    · exact Nat.le_of_lt (Nat.lt_div_mul_add hL)

/-- Witness for `resolve_global_size_correct` at `M = 70`, `L = 16`
(the spec's own end-to-end example: the resolved size is 80). -/
theorem resolve_global_size_correct_witness :
    resolve_global_size 70 16 = 80
    ∧ resolve_global_size 70 16 % 16 = 0
    ∧ 70 ≤ resolve_global_size 70 16
    ∧ resolve_global_size 70 16 < 70 + 16 :=
  ⟨by decide, resolve_global_size_correct 70 16 (by decide) (by decide)⟩

/-- Claim C1 (refuted at the `size_t` overflow boundary): at minimum size
`M = 2^64 - 1` and local size `L = 2` the addition `multiple += local_items`
wraps, the resolved global size is `0`, and the claimed postcondition
`G >= M` fails — as does the code's own
`assert(multiple % local_items == 0 && multiple >= work_items)`. -/
theorem enqueue_global_size_overflow :
    0 < 2 ^ 64 - 1
    ∧ 0 < 2
    ∧ resolve_global_size (2 ^ 64 - 1) 2 = 0
    ∧ ¬ (2 ^ 64 - 1 ≤ resolve_global_size (2 ^ 64 - 1) 2)
    ∧ (enqueue_ndrange_kernel okDriver ⟨"s", "k"⟩ [2 ^ 64 - 1] [2]
        none [] none 0).2.globalSize = [0] := by
  refine ⟨by decide, by decide, by decide, by decide, ?_⟩
  simp only [enqueue_ndrange_kernel, List.zipWith]
  decide

/-! ### Buffer-allocation policy (claim C6) -/

/-- Bitwise-or with a constant whose bit `i` is clear leaves bit `i`
unchanged. -/
theorem testBit_lor_low (flags c i : Nat) (hc : c.testBit i = false) :
    (flags ||| c).testBit i = flags.testBit i := by
  rw [Nat.testBit_lor, hc, Bool.or_false]

/-- Claim C6: `create_buffer` passes the caller's flags to the driver plus
exactly one policy flag — `CL_MEM_ALLOC_HOST_PTR` for a CPU device without
initial data, `CL_MEM_USE_HOST_PTR` for a CPU device with initial data,
`CL_MEM_COPY_HOST_PTR` for a non-CPU device with initial data, and nothing
for a non-CPU device without initial data; the read/write access bits
(bits 0..2) are always preserved unchanged. -/
theorem create_buffer_flag_policy (is_cpu : Bool) (flags : Nat)
    (size sizeofT : Nat) (data : Option Nat) :
    (create_buffer is_cpu flags size sizeofT data).flags
      = flags |||
        (if is_cpu then
          (if data.isNone then CL_MEM_ALLOC_HOST_PTR else CL_MEM_USE_HOST_PTR)
         else (if data.isSome then CL_MEM_COPY_HOST_PTR else 0))
    ∧ (create_buffer is_cpu flags size sizeofT data).flags.testBit 0
        = flags.testBit 0
    ∧ (create_buffer is_cpu flags size sizeofT data).flags.testBit 1
        = flags.testBit 1
    ∧ (create_buffer is_cpu flags size sizeofT data).flags.testBit 2
        = flags.testBit 2 := by
  rcases data with _ | v <;> rcases is_cpu
  · exact ⟨(Nat.or_zero flags).symm, rfl, rfl, rfl⟩
  · exact ⟨rfl, testBit_lor_low _ _ _ (by decide),
      testBit_lor_low _ _ _ (by decide), testBit_lor_low _ _ _ (by decide)⟩
  · exact ⟨rfl, testBit_lor_low _ _ _ (by decide),
      testBit_lor_low _ _ _ (by decide), testBit_lor_low _ _ _ (by decide)⟩
  · exact ⟨rfl, testBit_lor_low _ _ _ (by decide),
      testBit_lor_low _ _ _ (by decide), testBit_lor_low _ _ _ (by decide)⟩

/-! ### Positional argument binding (claim C7) -/

/-- Claim C7 as stated is false at the `unsigned` wrap: pushing `2^32 + 1`
arguments into a reset binder does not bind at indices `0..2^32` — the
`2^32`-th push (counting from 0) wraps back to index 0. -/
theorem push_wrap_counterexample :
    ¬ ((pushMany okDriver
          ((⟨⟨"s", "k"⟩, 0⟩ : kernel_argument_list).reset)
          (List.replicate (2 ^ 32 + 1) (KArg.value 0))).2.map Prod.fst
        = List.range
            (List.replicate (2 ^ 32 + 1) (KArg.value 0)).length) := by
  rw [pushMany_reset_indices, List.length_replicate]
  intro hEq
  have h1 := congrArg (fun l => l[2 ^ 32]?) hEq
  simp only [List.getElem?_map,
    List.getElem?_range (by omega : 2 ^ 32 < 2 ^ 32 + 1),
    Option.map_some', unsigned_modulus, Nat.mod_self] at h1
  exact absurd (Option.some.inj h1) (by norm_num)

/-- Claim C7, corrected for the `unsigned` counter wrap: the n-th push from
a reset binder binds at index `n % 2^32` — hence at exactly index n for
every sequence of at most `2^32` pushes; after n pushes the counter reads
`n % 2^32`; each push returns the driver's error code and advances the
counter by exactly one modulo `2^32`; the first push after `reset()` binds
at index 0. -/
theorem push_strictly_positional_wrap (d : Driver)
    (s : kernel_argument_list) (args : List KArg) :
    ((pushMany d s.reset args).2.map Prod.fst
        = (List.range args.length).map (fun i => i % unsigned_modulus))
    ∧ (args.length ≤ unsigned_modulus →
        (pushMany d s.reset args).2.map Prod.fst = List.range args.length)
    ∧ ((pushMany d s.reset args).1.num_arguments
        = args.length % unsigned_modulus)
    ∧ (∀ a : KArg,
        (s.push d a).1 = d.setArg s.kernel s.num_arguments a
        ∧ (s.push d a).2.num_arguments
            = (s.num_arguments + 1) % unsigned_modulus
        ∧ (s.reset.push d a).1 = d.setArg s.kernel 0 a) := by
  refine ⟨pushMany_reset_indices d s args, ?_, ?_, fun a => ⟨rfl, rfl, rfl⟩⟩
  · intro hlen
    rw [pushMany_reset_indices d s args]
    have hid : ∀ x ∈ List.range args.length, x % unsigned_modulus = x :=
      fun x hx => Nat.mod_eq_of_lt
        (lt_of_lt_of_le (List.mem_range.mp hx) hlen)
    calc (List.range args.length).map (fun i => i % unsigned_modulus)
        = (List.range args.length).map (fun i => i) :=
          List.map_congr_left hid
      _ = List.range args.length := List.map_id' _
  · rw [pushMany_eq d s.reset args unsigned_modulus_pos]
    simp [kernel_argument_list.reset]

/-- Witness for `push_strictly_positional_wrap`: three pushes from a reset
binder bind at exactly the indices 0, 1, 2. -/
theorem push_strictly_positional_wrap_witness :
    (pushMany okDriver
        ((⟨⟨"s", "k"⟩, 5⟩ : kernel_argument_list).reset)
        [KArg.value 1, KArg.value 2, KArg.value 3]).2.map Prod.fst
      = List.range 3 :=
  (push_strictly_positional_wrap okDriver ⟨⟨"s", "k"⟩, 5⟩
      [KArg.value 1, KArg.value 2, KArg.value 3]).2.1 (by decide)

/-! ### Kernel invocation (claims C8 and C9) -/

/-- Claim C8: `kernel_call::operator()` first resets the binder, binds each
argument in order (local-memory arguments as a null pointer with their byte
size, raw-memory arguments as pointer plus byte size, all others by value)
at the successive counter values — indices `i % 2^32`, which are exactly
the indices 0..n-1 whenever the argument pack has at most `2^32` entries,
as every C++ pack does — then enqueues exactly once, non-blocking, on
queue 0 with a null offset, the stored event slot and dependency list, and
the launch geometry computed by the per-dimension rounding; it returns the
driver's enqueue status and leaves the binder's counter at 0. -/
theorem kernel_call_invoke_spec (d : Driver) (kc : kernel_call)
    (arguments : List CallArg) :
    (kernel_call.invoke d kc arguments
      = (d.enqueueResult
           { kernel := kc.kernel, offset := [],
             globalSize :=
               List.zipWith resolve_global_size kc.work_dim kc.group_dim,
             localSize := kc.group_dim, event := kc.evt,
             dependencies := kc.dependencies, queue := 0 },
         { kc with args := ⟨kc.args.kernel, 0⟩ },
         (List.enumFrom 0 arguments).map
           (fun p => KernelCallEvent.setArgCall kc.args.kernel
             (p.1 % unsigned_modulus) p.2.toKArg)
         ++ [KernelCallEvent.enqueue
              { kernel := kc.kernel, offset := [],
                globalSize :=
                  List.zipWith resolve_global_size kc.work_dim kc.group_dim,
                localSize := kc.group_dim, event := kc.evt,
                dependencies := kc.dependencies, queue := 0 }]))
    ∧ (arguments.length ≤ unsigned_modulus →
        kernel_call.invoke d kc arguments
          = (d.enqueueResult
               { kernel := kc.kernel, offset := [],
                 globalSize :=
                   List.zipWith resolve_global_size kc.work_dim kc.group_dim,
                 localSize := kc.group_dim, event := kc.evt,
                 dependencies := kc.dependencies, queue := 0 },
             { kc with args := ⟨kc.args.kernel, 0⟩ },
             (List.enumFrom 0 arguments).map
               (fun p => KernelCallEvent.setArgCall kc.args.kernel
                 p.1 p.2.toKArg)
             ++ [KernelCallEvent.enqueue
                  { kernel := kc.kernel, offset := [],
                    globalSize :=
                      List.zipWith resolve_global_size kc.work_dim
                        kc.group_dim,
                    localSize := kc.group_dim, event := kc.evt,
                    dependencies := kc.dependencies, queue := 0 }])) := by
  have h1 : kernel_call.invoke d kc arguments
      = (d.enqueueResult
           { kernel := kc.kernel, offset := [],
             globalSize :=
               List.zipWith resolve_global_size kc.work_dim kc.group_dim,
             localSize := kc.group_dim, event := kc.evt,
             dependencies := kc.dependencies, queue := 0 },
         { kc with args := ⟨kc.args.kernel, 0⟩ },
         (List.enumFrom 0 arguments).map
           (fun p => KernelCallEvent.setArgCall kc.args.kernel
             (p.1 % unsigned_modulus) p.2.toKArg)
         ++ [KernelCallEvent.enqueue
              { kernel := kc.kernel, offset := [],
                globalSize :=
                  List.zipWith resolve_global_size kc.work_dim kc.group_dim,
                localSize := kc.group_dim, event := kc.evt,
                dependencies := kc.dependencies, queue := 0 }]) := by
    have hc := configure_arguments_eq d kc.args.reset arguments
      unsigned_modulus_pos
    simp only [kernel_argument_list.reset, Nat.zero_add] at hc
    simp [kernel_call.invoke, kernel_call.enqueue_kernel,
      enqueue_ndrange_kernel, kernel_argument_list.reset, hc]
  refine ⟨h1, fun hlen => ?_⟩
  rw [h1]
  have htr : (List.enumFrom 0 arguments).map
        (fun p => KernelCallEvent.setArgCall kc.args.kernel
          (p.1 % unsigned_modulus) p.2.toKArg)
      = (List.enumFrom 0 arguments).map
          (fun p => KernelCallEvent.setArgCall kc.args.kernel
            p.1 p.2.toKArg) := by
    apply List.map_congr_left
    intro p hp
    have hlt : p.1 < arguments.length := by
      have := List.fst_lt_add_of_mem_enumFrom hp
      simpa using this
    rw [Nat.mod_eq_of_lt (lt_of_lt_of_le hlt hlen)]
  rw [htr]

/-- Witness for `kernel_call_invoke_spec`: a concrete two-argument
invocation with minimum size 70 and group size 16 binds at indices 0 and 1
and enqueues with the rounded global size 80. -/
theorem kernel_call_invoke_spec_witness :
    kernel_call.invoke okDriver
        (kernel_call.mk' ⟨"s", "k"⟩ [70] [16] none none)
        [CallArg.value 1, CallArg.localMem 3 4]
      = (0,
         { kernel := ⟨"s", "k"⟩, args := ⟨⟨"s", "k"⟩, 0⟩,
           work_dim := [70], group_dim := [16],
           evt := none, dependencies := none },
         [KernelCallEvent.setArgCall ⟨"s", "k"⟩ 0 (KArg.value 1),
          KernelCallEvent.setArgCall ⟨"s", "k"⟩ 1 (KArg.rawBlock none 12),
          KernelCallEvent.enqueue
            { kernel := ⟨"s", "k"⟩, offset := [], globalSize := [80],
              localSize := [16], event := none, dependencies := none,
              queue := 0 }]) :=
  (kernel_call_invoke_spec okDriver
      (kernel_call.mk' ⟨"s", "k"⟩ [70] [16] none none)
      [CallArg.value 1, CallArg.localMem 3 4]).2 (by decide)

/-- Claim C9 (intended semantics; the source itself does not compile, see
`partial_argument_binding`): from any reachable binder state (counter below
`2^32`), partial binding continues at the binder's current index — the
events bind at the successive wrapped counter values, which are exactly
counter, counter+1, ... whenever counter plus the number of arguments stays
within `2^32`; the counter advances by the number of arguments (modulo
`2^32`), and `discard_partial_arguments` resets the counter to 0. -/
theorem partial_arguments_continue (d : Driver) (kc : kernel_call)
    (arguments : List CallArg)
    (h : kc.args.num_arguments < unsigned_modulus) :
    ((partial_argument_binding d kc arguments).2
      = (List.enumFrom kc.args.num_arguments arguments).map
          (fun p => KernelCallEvent.setArgCall kc.args.kernel
            (p.1 % unsigned_modulus) p.2.toKArg))
    ∧ ((partial_argument_binding d kc arguments).1.args.num_arguments
        = (kc.args.num_arguments + arguments.length) % unsigned_modulus)
    ∧ (kc.args.num_arguments + arguments.length ≤ unsigned_modulus →
        (partial_argument_binding d kc arguments).2
          = (List.enumFrom kc.args.num_arguments arguments).map
              (fun p => KernelCallEvent.setArgCall kc.args.kernel
                p.1 p.2.toKArg))
    ∧ ((discard_partial_arguments kc).args.num_arguments = 0) := by
  have hc := configure_arguments_eq d kc.args arguments h
  refine ⟨?_, ?_, ?_, rfl⟩
  · simp [partial_argument_binding, hc]
  · simp [partial_argument_binding, hc]
  · intro hlen
    simp only [partial_argument_binding, hc]
    apply List.map_congr_left
    intro p hp
    have hlt : p.1 < kc.args.num_arguments + arguments.length :=
      List.fst_lt_add_of_mem_enumFrom hp
    rw [Nat.mod_eq_of_lt (lt_of_lt_of_le hlt hlen)]

/-- Witness for `partial_arguments_continue`: with the counter at 2, one
partially bound argument binds at index 2 without a reset. -/
theorem partial_arguments_continue_witness :
    (partial_argument_binding okDriver
        { kernel := ⟨"s", "k"⟩, args := ⟨⟨"s", "k"⟩, 2⟩,
          work_dim := [4], group_dim := [2],
          evt := none, dependencies := none }
        [CallArg.value 5]).2
      = [KernelCallEvent.setArgCall ⟨"s", "k"⟩ 2 (KArg.value 5)] :=
  (partial_arguments_continue okDriver
      { kernel := ⟨"s", "k"⟩, args := ⟨⟨"s", "k"⟩, 2⟩,
        work_dim := [4], group_dim := [2],
        evt := none, dependencies := none }
      [CallArg.value 5] (by decide)).2.2.1 (by decide)

/-! ### The compilation cache (claims C2, C3, C4, C5, C10) -/

theorem get_kernel_ok_of_find (ctx : device_context) (n : String)
    (k : KernelHandle) (h : mapFind? ctx.kernels n = some (some k)) :
    (get_kernel ctx n).2 = Except.ok k := by
  simp [get_kernel, h]

theorem get_kernel_error_of_null (ctx : device_context) (n : String)
    (h : mapFind? ctx.kernels n = some none) :
    (get_kernel ctx n).2
      = Except.error "Requested kernel could not be found!" := by
  simp [get_kernel, h]

theorem get_kernel_error_of_absent (ctx : device_context) (n : String)
    (h : mapFind? ctx.kernels n = none) :
    (get_kernel ctx n).2
      = Except.error "Requested kernel could not be found!" := by
  simp [get_kernel, h]

/-- Claim C2: compilation happens at most once per program identifier —
(1) after a successful registration, repeating it with the same
`(program_id, kernel_names)` pair (any source text) performs no driver call
at all and leaves the context unchanged; (2) when every requested scoped
name is already in the kernel map, no compilation and no kernel-handle
creation occurs; (3) a program identifier present in the program cache is
never recompiled, whatever the outcome of the registration. -/
theorem register_compiles_at_most_once (d : Driver) (ctx : device_context)
    (src : String) (names : List String) (pid scope : String) :
    (∀ ctx₁ tr₁,
        register_source_code d ctx src names pid scope = (ctx₁, tr₁, none) →
        ∀ src₂,
          register_source_code d ctx₁ src₂ names pid scope = (ctx₁, [], none))
    ∧ ((∀ k ∈ names, (mapFind? ctx.kernels (scopePre scope ++ k)).isSome) →
        register_source_code d ctx src names pid scope = (ctx, [], none))
    ∧ (∀ prog, mapFind? ctx.programCache pid = some prog →
        ∀ s, DriverCall.compile s
          ∉ (register_source_code d ctx src names pid scope).2.1) := by
  refine ⟨?_, ?_, ?_⟩
  · intro ctx₁ tr₁ h src₂
    exact register_all_known d ctx₁ src₂ names pid scope
      (register_ok_all_present d ctx src names pid scope ctx₁ tr₁ h)
  · intro hall
    exact register_all_known d ctx src names pid scope hall
  · intro prog hp s
    exact register_cached_no_compile d ctx src names pid scope prog hp s

/-- Witness for `register_compiles_at_most_once`: registering
`("P", ["k1"])` on a fresh context and then repeating the registration with
a different source text performs no driver call and leaves the context
unchanged. -/
theorem register_compiles_at_most_once_witness :
    register_source_code okDriver
        ⟨[("k1", some ⟨"s1", "k1"⟩)], [("P", ⟨"s1"⟩)]⟩ "s2" ["k1"] "P" ""
      = (⟨[("k1", some ⟨"s1", "k1"⟩)], [("P", ⟨"s1"⟩)]⟩, [], none) :=
  (register_compiles_at_most_once okDriver ⟨[], []⟩ "s1" ["k1"] "P" "").1
    ⟨[("k1", some ⟨"s1", "k1"⟩)], [("P", ⟨"s1"⟩)]⟩
    [DriverCall.compile "s1", DriverCall.createKernel "s1" "k1"] rfl "s2"

/-- Claim C3: after a successful registration, every requested kernel name
whose scoped entry was not poisoned by an earlier failed lookup is
retrievable under exactly `scopePre scope ++ name`; any name that was absent
before the call and is not one of the newly scoped names still fails with
the not-found error; and on a fresh context every lookup fails with the
not-found error. -/
theorem get_kernel_scoped_names (d : Driver) (ctx : device_context)
    (src : String) (names : List String) (pid scope : String)
    (ctx' : device_context) (tr : List DriverCall)
    (h : register_source_code d ctx src names pid scope = (ctx', tr, none)) :
    (∀ k ∈ names,
        mapFind? ctx.kernels (scopePre scope ++ k) ≠ some none →
        ∃ hk, (get_kernel ctx' (scopePre scope ++ k)).2 = Except.ok hk)
    ∧ (∀ X, mapFind? ctx.kernels X = none →
        (∀ k ∈ names, X ≠ scopePre scope ++ k) →
        (get_kernel ctx' X).2
          = Except.error "Requested kernel could not be found!")
    ∧ (∀ X, (get_kernel (⟨[], []⟩ : device_context) X).2
        = Except.error "Requested kernel could not be found!") := by
  have h1 : (register_source_code d ctx src names pid scope).1 = ctx' := by
    rw [h]
  refine ⟨?_, ?_, fun X => rfl⟩
  · intro k hk hnp
    rcases h4 : mapFind? ctx.kernels (scopePre scope ++ k) with _ | v
    · obtain ⟨s, hs⟩ :=
        register_ok_fresh_kernel d ctx src names pid scope k ctx' tr h hk h4
      exact ⟨⟨s, k⟩, by simp [get_kernel, hs]⟩
    · rcases v with _ | hdl
      · exact absurd h4 hnp
      · have hpres := register_find_preserved d ctx src names pid scope
          (scopePre scope ++ k) ?_
        · rw [h1] at hpres
          rw [h4] at hpres
          exact ⟨hdl, by simp [get_kernel, hpres]⟩
        · intro m hm he
          have := (List.mem_filter.mp hm).2
          rw [← he, h4] at this
          simp at this
  · intro X hX hne
    have hpres := register_find_preserved d ctx src names pid scope X
      (fun m hm => hne m (List.mem_of_mem_filter hm))
    rw [h1, hX] at hpres
    simp [get_kernel, hpres]

/-- Witness for `get_kernel_scoped_names`: registering `["k1"]` under scope
"S" on a fresh context makes `"S::k1"` retrievable while the bare `"k1"`
still fails with the not-found error. -/
theorem get_kernel_scoped_names_witness :
    (∃ hk, (get_kernel
        ⟨[("S::k1", some ⟨"src", "k1"⟩)], [("P", ⟨"src"⟩)]⟩ "S::k1").2
      = Except.ok hk)
    ∧ (get_kernel
        ⟨[("S::k1", some ⟨"src", "k1"⟩)], [("P", ⟨"src"⟩)]⟩ "k1").2
      = Except.error "Requested kernel could not be found!" := by
  have H := get_kernel_scoped_names okDriver ⟨[], []⟩ "src" ["k1"] "P" "S"
      ⟨[("S::k1", some ⟨"src", "k1"⟩)], [("P", ⟨"src"⟩)]⟩
      [DriverCall.compile "src", DriverCall.createKernel "src" "k1"] rfl
  exact ⟨H.1 "k1" (by decide) (by decide), H.2.1 "k1" rfl (by decide)⟩

/-- Any `createKernel` driver call made by `register_source_code` is for one
of the names it classified as new. -/
theorem register_createKernel_new (d : Driver) (ctx : device_context)
    (src : String) (names : List String) (pid scope : String) (s n : String)
    (h : DriverCall.createKernel s n
      ∈ (register_source_code d ctx src names pid scope).2.1) :
    n ∈ newKernelsOf ctx names scope := by
  simp only [register_source_code] at h
  simp only [newKernelsOf]
  by_cases hnk :
      (names.filter
        (fun k => (mapFind? ctx.kernels (scopePre scope ++ k)).isNone)).length > 0
  · rw [if_pos hnk] at h
    rcases hc : mapFind? ctx.programCache pid with _ | prog
    · rw [hc] at h
      rcases hcs : compile_source d src with msg | prog2
      · rw [hcs] at h
        simp at h
      · rw [hcs] at h
        simp only [load_kernels] at h
        rcases List.mem_cons.mp h with hbad | h
        · exact absurd hbad (by simp)
        · exact load_kernelsGo_createKernel_mem _ _ _ _ _ _ _ h
    · rw [hc] at h
      simp only [load_kernels] at h
      exact load_kernelsGo_createKernel_mem _ _ _ _ _ _ _ h
  · rw [if_neg hnk] at h
    simp at h

/-- Claim C4: a failed `get_kernel` lookup poisons the kernel map — the
lookup fails, it inserts a null entry for the name, and a later empty-scope
registration that includes the name classifies it as already known: it
creates no kernel object for it, the entry stays null, and `get_kernel`
keeps failing on it. -/
theorem get_kernel_poisons (d : Driver) (ctx : device_context) (X : String)
    (hX : mapFind? ctx.kernels X = none) :
    (get_kernel ctx X).2 = Except.error "Requested kernel could not be found!"
    ∧ mapFind? (get_kernel ctx X).1.kernels X = some none
    ∧ ∀ src names pid, X ∈ names →
        (∀ s n, DriverCall.createKernel s n
            ∈ (register_source_code d (get_kernel ctx X).1 src names pid "").2.1
          → n ≠ X)
        ∧ mapFind?
            (register_source_code d (get_kernel ctx X).1 src names pid "").1.kernels X
            = some none
        ∧ (get_kernel
            (register_source_code d (get_kernel ctx X).1 src names pid "").1 X).2
            = Except.error "Requested kernel could not be found!" := by
  have hget : (get_kernel ctx X).1
      = { ctx with kernels := mapInsert ctx.kernels X none } := by
    simp [get_kernel, hX]
  have hfind1 : mapFind? (get_kernel ctx X).1.kernels X = some none := by
    rw [hget]
    exact mapFind?_mapInsert_self _ _ _
  refine ⟨by simp [get_kernel, hX], hfind1, ?_⟩
  intro src names pid hXn
  have hXnotnew : X ∉ newKernelsOf (get_kernel ctx X).1 names "" := by
    intro hmem
    have := (List.mem_filter.mp hmem).2
    have hkey : scopePre "" ++ X = X := rfl
    rw [hkey, hfind1] at this
    simp at this
  have hpres := register_find_preserved d (get_kernel ctx X).1 src names pid "" X
    (fun m hm he => hXnotnew (by rwa [show scopePre "" ++ m = m from rfl] at he ▸ hm))
  refine ⟨?_, ?_, ?_⟩
  · intro s n hn he
    have hmem :=
      register_createKernel_new d ((get_kernel ctx X).1) src names pid "" s n hn
    rw [he] at hmem
    exact hXnotnew hmem
  · rw [hpres, hfind1]
  · exact get_kernel_error_of_null _ _ (hpres.trans hfind1)

/-- Witness for `get_kernel_poisons`: on a fresh context, looking up "x",
then registering `["x", "y"]` under "P", leaves the entry for "x" null. -/
theorem get_kernel_poisons_witness :
    mapFind? (register_source_code okDriver (get_kernel ⟨[], []⟩ "x").1
        "s" ["x", "y"] "P" "").1.kernels "x" = some none :=
  ((get_kernel_poisons okDriver ⟨[], []⟩ "x" rfl).2.2 "s" ["x", "y"] "P"
    (by decide)).2.1

/-- Claim C5: when compilation is required and fails, `register_source_code`
throws synchronously a message made of the device name concatenated with the
build log, leaves the context (program cache and kernel map) exactly
unchanged, and any later registration on that context behaves as if the
failing call had never happened. -/
theorem register_compile_failure_spec (d : Driver) (ctx : device_context)
    (src : String) (names : List String) (pid scope : String)
    (hnew : (newKernelsOf ctx names scope).length > 0)
    (hpid : mapFind? ctx.programCache pid = none)
    (hfail : d.compileOk src = false) :
    register_source_code d ctx src names pid scope
      = (ctx, [DriverCall.compile src],
         some (d.deviceName ++ ": Could not compile CL source: "
           ++ d.buildLog src))
    ∧ ∀ (src' : String) (names' : List String) (pid' scope' : String),
        register_source_code d
            (register_source_code d ctx src names pid scope).1
            src' names' pid' scope'
          = register_source_code d ctx src' names' pid' scope' := by
  have hmain : register_source_code d ctx src names pid scope
      = (ctx, [DriverCall.compile src],
         some (d.deviceName ++ ": Could not compile CL source: "
           ++ d.buildLog src)) := by
    simp only [newKernelsOf] at hnew
    simp only [register_source_code]
    rw [if_pos hnew, hpid]
    have hcs : compile_source d src
        = Except.error (d.deviceName ++ ": Could not compile CL source: "
            ++ d.buildLog src) := by
      simp [compile_source, hfail]
    rw [hcs]
  exact ⟨hmain, fun src' names' pid' scope' => by rw [hmain]⟩

/-- Witness for `register_compile_failure_spec`: a failing compile on a
fresh context returns the device name plus the log and changes nothing. -/
theorem register_compile_failure_witness :
    register_source_code failDriver ⟨[], []⟩ "bad" ["k"] "P" ""
      = (⟨[], []⟩, [DriverCall.compile "bad"],
         some ("dev" ++ ": Could not compile CL source: " ++ "log")) :=
  (register_compile_failure_spec failDriver ⟨[], []⟩ "bad" ["k"] "P" ""
    (by decide) rfl rfl).1

/-- Claim C10: the overload of `register_source_code` without a program
identifier keys the program cache by the concatenation of the kernel names;
two calls whose name lists concatenate to the same string share that key, so
the second call never compiles its own source, and any previously-unseen
kernel name of the second call gets its handle built from the program the
first call compiled (from the first source text). -/
theorem register_auto_key_collision (d : Driver) (ctx : device_context)
    (src₁ src₂ : String) (names₁ names₂ : List String)
    (hconcat : names₂.foldl (fun acc s => acc ++ s) ""
      = names₁.foldl (fun acc s => acc ++ s) "")
    (hcache : mapFind?
        (register_source_code_auto d ctx src₁ names₁).1.programCache
        (names₁.foldl (fun acc s => acc ++ s) "")
      = some ⟨src₁⟩) :
    (∀ s, DriverCall.compile s
      ∉ (register_source_code_auto d
          (register_source_code_auto d ctx src₁ names₁).1 src₂ names₂).2.1)
    ∧ ∀ k ∈ names₂,
        mapFind? (register_source_code_auto d ctx src₁ names₁).1.kernels k
            = none →
        (register_source_code_auto d
            (register_source_code_auto d ctx src₁ names₁).1 src₂ names₂).2.2
            = none →
        mapFind? (register_source_code_auto d
            (register_source_code_auto d ctx src₁ names₁).1 src₂
            names₂).1.kernels k
          = some (some ⟨src₁, k⟩) := by
  have hunfold : register_source_code_auto d
        (register_source_code_auto d ctx src₁ names₁).1 src₂ names₂
      = register_source_code d (register_source_code_auto d ctx src₁ names₁).1
          src₂ names₂ (names₁.foldl (fun acc s => acc ++ s) "") "" := by
    simp only [register_source_code_auto]
    rw [hconcat]
  constructor
  · intro s
    rw [hunfold]
    exact register_cached_no_compile d _ src₂ names₂ _ "" ⟨src₁⟩ hcache s
  · intro k hk hfresh hok
    rw [hunfold] at hok ⊢
    have hfresh' : mapFind?
        (register_source_code_auto d ctx src₁ names₁).1.kernels
        (scopePre "" ++ k) = none := hfresh
    exact register_cached_new_kernel d _ src₂ names₂ _ "" ⟨src₁⟩ k hcache hk
      hfresh' hok

/-- Witness for `register_auto_key_collision`: `["ab","c"]` with source "s1"
then `["a","bc"]` with source "s2" share the cache key "abc", and the new
kernel "bc" is built from the program compiled from "s1". -/
theorem register_auto_key_collision_witness :
    mapFind? (register_source_code_auto okDriver
        (register_source_code_auto okDriver ⟨[], []⟩ "s1" ["ab", "c"]).1
        "s2" ["a", "bc"]).1.kernels "bc"
      = some (some ⟨"s1", "bc"⟩) :=
  (register_auto_key_collision okDriver ⟨[], []⟩ "s1" "s2" ["ab", "c"]
      ["a", "bc"] (by decide) (by decide)).2 "bc" (by decide) rfl rfl

end QCL
